import Mathlib

/-!
Verification model of the Orbit travel-planner front end.

The definitions below are a shallow embedding of the application's
client-side logic:

* `camelCaseToDash` — the tool-name case transform of `index.tsx`.
* `Json`, `parseStep`, `jsonParse` — an executable model of the runtime
  `JSON.parse` used by the error-message refinement of `index.tsx`.
* `baseErrorText`, `refineErrorMessage`, `renderedErrorText` — the
  streaming-error extraction of `sendMessageHandler` in `index.tsx`.
* `sendMessageAction` and `sendMessageHandler` — the chat-turn entry point
  of `map_app` and the turn orchestrator of `index.tsx`, modelled as
  state-passing functions over `ChatAppState`.  The model response stream
  is a value of `StreamOutcome` (a list of chunks, optionally ending in a
  thrown error); external collaborators (`marked.parse`,
  `JSON.stringify`) are parameters of `ChatEnv`.
* `handleMapQuery` and its handlers — the map-query router of `map_app`,
  modelled over `MapAppState`; geocoding and routing are parameters of
  `MapEnv` (their asynchronous callbacks are folded in sequentially),
  camera movements are recorded in a `flights` log, and deferred
  `setTimeout` callbacks are recorded in `pendingTimers` without being
  executed.

JavaScript numbers that the modelled logic never computes with
(latitude/longitude, tilt, range) are represented by `Int`/`ℚ`.
JavaScript string operations are modelled for ASCII data (`jsToLower`,
`jsTrim`, `jsIncludes`), which covers every input the claims quantify
over.
-/

namespace Orbit

/-- The left-brace character, written via its code point. -/
def braceL : Char := Char.ofNat 123

/-- The right-brace character, written via its code point. -/
def braceR : Char := Char.ofNat 125

/-- JavaScript truthiness of an optional string value: `undefined` and the
empty string are falsy. -/
def truthyStr : Option String → Bool
  | some s => s != ""
  | none => false

/-- Model of JavaScript `String.prototype.toLowerCase` on a character,
restricted to ASCII (the only data the claims quantify over). -/
def jsToLowerChar (c : Char) : Char :=
  if 65 ≤ c.toNat ∧ c.toNat ≤ 90 then Char.ofNat (c.toNat + 32) else c

/-- Model of JavaScript `String.prototype.toLowerCase` (ASCII). -/
def jsToLower (s : String) : String :=
  String.mk (s.toList.map jsToLowerChar)

/-- Model of the whitespace class trimmed by `String.prototype.trim`
(ASCII subset). -/
def jsWs (c : Char) : Bool :=
  c == ' ' || c == '\t' || c == '\n' || c == '\r' || c == Char.ofNat 11 || c == Char.ofNat 12

/-- Model of JavaScript `String.prototype.trim` (ASCII whitespace). -/
def jsTrim (s : String) : String :=
  String.mk (((s.toList.dropWhile jsWs).reverse.dropWhile jsWs).reverse)

/-- Whether `needle` occurs as a contiguous sublist of the second list. -/
def subListOccurs (needle : List Char) : List Char → Bool
  | [] => needle.isEmpty
  | c :: rest => needle.isPrefixOf (c :: rest) || subListOccurs needle rest

/-- Model of JavaScript `hay.includes(sub)`. -/
def jsIncludes (hay sub : String) : Bool :=
  subListOccurs sub.toList hay.toList

/-- Index of the first occurrence of a character (JavaScript
`String.prototype.indexOf`, with `none` for `-1`). -/
def idxOfChar (target : Char) : List Char → Option Nat
  | [] => none
  | c :: rest => if c = target then some 0 else (idxOfChar target rest).map (· + 1)

/-- Index of the last occurrence of a character (JavaScript
`String.prototype.lastIndexOf`, with `none` for `-1`). -/
def lastIdxOfChar (target : Char) (l : List Char) : Option Nat :=
  (idxOfChar target l.reverse).map (fun i => l.length - 1 - i)

/-- Insertion-order association-list update with the semantics of
JavaScript `Map.prototype.set` (and of duplicate keys in `JSON.parse`):
an existing key keeps its position and gets the new value, a new key is
appended at the end. -/
def assocSet {β : Type} : List (String × β) → String → β → List (String × β)
  | [], k, v => [(k, v)]
  | (k', v') :: rest, k, v =>
    if k' = k then (k', v) :: rest else (k', v') :: assocSet rest k v

/-- First-match association-list lookup (JavaScript property access on an
object whose keys are unique by construction). -/
def lookupAssoc {β : Type} : List (String × β) → String → Option β
  | [], _ => none
  | (k', v) :: rest, k => if k' = k then some v else lookupAssoc rest k

/-- `[A-Z]` of the source regexes. -/
def isUpperAZ (c : Char) : Bool := decide (65 ≤ c.toNat ∧ c.toNat ≤ 90)

/-- `[a-z]` of the source regexes. -/
def isLowerAZ (c : Char) : Bool := decide (97 ≤ c.toNat ∧ c.toNat ≤ 122)

/-- `[0-9]`. -/
def isDigit09 (c : Char) : Bool := decide (48 ≤ c.toNat ∧ c.toNat ≤ 57)

/-- ASCII letter or digit. -/
def isAsciiAlnum (c : Char) : Bool := isLowerAZ c || isUpperAZ c || isDigit09 c

/-- Global replacement of `/([a-z])([A-Z])/g` by `$1-$2`: after a match the
scan resumes after the matched pair, as in JavaScript `replace`. -/
def dashLowerUpper : List Char → List Char
  | a :: b :: rest =>
    if isLowerAZ a && isUpperAZ b then a :: '-' :: b :: dashLowerUpper rest
    else a :: dashLowerUpper (b :: rest)
  | l => l

/-- Global replacement of `/([A-Z])([A-Z][a-z])/g` by `$1-$2`: a match
consumes three characters, and the scan resumes after them. -/
def dashUpperUpperLower : List Char → List Char
  | a :: b :: c :: rest =>
    if isUpperAZ a && isUpperAZ b && isLowerAZ c then
      a :: '-' :: b :: c :: dashUpperUpperLower rest
    else a :: dashUpperUpperLower (b :: c :: rest)
  | l => l

/-- `camelCaseToDash` of `index.tsx`: the two regex replacements followed
by `toLowerCase()`. -/
def camelCaseToDash (s : String) : String :=
  String.mk ((dashUpperUpperLower (dashLowerUpper s.toList)).map jsToLowerChar)

/-- JSON values as produced by `JSON.parse`.  Numbers keep their raw
source text (the error-refinement logic never computes with them). -/
inductive Json where
  | null
  | bool (b : Bool)
  | num (raw : String)
  | str (s : String)
  | arr (elems : List Json)
  | obj (fields : List (String × Json))

/-- Whitespace accepted between JSON tokens. -/
def jsonWs (c : Char) : Bool := c == ' ' || c == '\t' || c == '\n' || c == '\r'

/-- Skip JSON whitespace. -/
def skipWs : List Char → List Char
  | [] => []
  | c :: cs => if jsonWs c then skipWs cs else c :: cs

/-- Value of a hexadecimal digit. -/
def hexVal (c : Char) : Option Nat :=
  if 48 ≤ c.toNat ∧ c.toNat ≤ 57 then some (c.toNat - 48)
  else if 65 ≤ c.toNat ∧ c.toNat ≤ 70 then some (c.toNat - 55)
  else if 97 ≤ c.toNat ∧ c.toNat ≤ 102 then some (c.toNat - 87)
  else none

/-- Single-character escapes of JSON strings. -/
def jsonEscChar (e : Char) : Option Char :=
  if e = '"' then some '"'
  else if e = '\\' then some '\\'
  else if e = '/' then some '/'
  else if e = 'b' then some (Char.ofNat 8)
  else if e = 'f' then some (Char.ofNat 12)
  else if e = 'n' then some '\n'
  else if e = 'r' then some '\r'
  else if e = 't' then some '\t'
  else none

/-- Parse the body of a JSON string after the opening quote; returns the
decoded characters and the input after the closing quote.  Raw control
characters are rejected, as by `JSON.parse`. -/
def parseStringRest : List Char → Option (List Char × List Char)
  | [] => none
  | c :: cs =>
    if c = '"' then some ([], cs)
    else if c = '\\' then
      match cs with
      | [] => none
      | e :: cs2 =>
        match jsonEscChar e with
        | some ch => (parseStringRest cs2).map (fun r => (ch :: r.1, r.2))
        | none =>
          if e = 'u' then
            match cs2 with
            | h1 :: h2 :: h3 :: h4 :: cs3 =>
              match hexVal h1, hexVal h2, hexVal h3, hexVal h4 with
              | some a, some b, some c2, some d =>
                (parseStringRest cs3).map
                  (fun r => (Char.ofNat (((a * 16 + b) * 16 + c2) * 16 + d) :: r.1, r.2))
              | _, _, _, _ => none
            | _ => none
          else none
    else if c.toNat < 32 then none
    else (parseStringRest cs).map (fun r => (c :: r.1, r.2))

/-- Take a maximal run of decimal digits. -/
def takeDigits : List Char → List Char × List Char
  | [] => ([], [])
  | c :: cs =>
    if isDigit09 c then
      let r := takeDigits cs
      (c :: r.1, r.2)
    else ([], c :: cs)

/-- Integer part of a JSON number (`0` or a nonzero-led digit run). -/
def parseIntPart : List Char → Option (List Char × List Char)
  | [] => none
  | c :: cs =>
    if c = '0' then some ([c], cs)
    else if isDigit09 c then
      let r := takeDigits cs
      some (c :: r.1, r.2)
    else none

/-- Optional fractional part of a JSON number. -/
def parseFracPart (cs : List Char) : Option (List Char × List Char) :=
  match cs with
  | c :: cs2 =>
    if c = '.' then
      let r := takeDigits cs2
      if r.1.isEmpty then none else some (c :: r.1, r.2)
    else some ([], cs)
  | [] => some ([], cs)

/-- Optional exponent part of a JSON number. -/
def parseExpPart (cs : List Char) : Option (List Char × List Char) :=
  match cs with
  | e :: cs2 =>
    if e = 'e' ∨ e = 'E' then
      match cs2 with
      | sgn :: cs3 =>
        if sgn = '+' ∨ sgn = '-' then
          let r := takeDigits cs3
          if r.1.isEmpty then none else some (e :: sgn :: r.1, r.2)
        else
          let r := takeDigits cs2
          if r.1.isEmpty then none else some (e :: r.1, r.2)
      | [] => none
    else some ([], cs)
  | [] => some ([], cs)

/-- A full JSON number; the raw text is kept. -/
def parseNumber (cs : List Char) : Option (List Char × List Char) :=
  let signAndRest : List Char × List Char :=
    match cs with
    | c :: rest => if c = '-' then ([c], rest) else ([], cs)
    | [] => ([], cs)
  match parseIntPart signAndRest.2 with
  | some (ip, cs2) =>
    match parseFracPart cs2 with
    | some (fp, cs3) =>
      match parseExpPart cs3 with
      | some (ep, cs4) => some (signAndRest.1 ++ ip ++ fp ++ ep, cs4)
      | none => none
    | none => none
  | none => none

/-- Match a keyword and return the remaining input. -/
def matchLit (lit cs : List Char) : Option (List Char) :=
  if lit.isPrefixOf cs then some (cs.drop lit.length) else none

/-- Parser work items: a value, the member list of an object, or the
element list of an array.  A single fuel-indexed function keeps the
recursion structural so that concrete runs reduce definitionally. -/
inductive PTask where
  | value (cs : List Char)
  | members (cs : List Char) (acc : List (String × Json))
  | elems (cs : List Char) (acc : List Json)

/-- Recursive-descent JSON parser (model of `JSON.parse`).  Duplicate
object keys follow `assocSet` (last value wins, first position kept). -/
def parseStep : Nat → PTask → Option (Json × List Char)
  | 0, _ => none
  | fuel + 1, PTask.value cs =>
    match skipWs cs with
    | [] => none
    | c :: rest =>
      if c = '"' then
        match parseStringRest rest with
        | some (content, r) => some (Json.str (String.mk content), r)
        | none => none
      else if c = braceL then
        match skipWs rest with
        | d :: r2 =>
          if d = braceR then some (Json.obj [], r2)
          else parseStep fuel (PTask.members (d :: r2) [])
        | [] => none
      else if c = '[' then
        match skipWs rest with
        | d :: r2 =>
          if d = ']' then some (Json.arr [], r2)
          else parseStep fuel (PTask.elems (d :: r2) [])
        | [] => none
      else if c = 't' then
        match matchLit ['r', 'u', 'e'] rest with
        | some r => some (Json.bool true, r)
        | none => none
      else if c = 'f' then
        match matchLit ['a', 'l', 's', 'e'] rest with
        | some r => some (Json.bool false, r)
        | none => none
      else if c = 'n' then
        match matchLit ['u', 'l', 'l'] rest with
        | some r => some (Json.null, r)
        | none => none
      else
        match parseNumber (c :: rest) with
        | some (raw, r) => some (Json.num (String.mk raw), r)
        | none => none
  | fuel + 1, PTask.members cs acc =>
    match cs with
    | [] => none
    | c :: rest =>
      if c = '"' then
        match parseStringRest rest with
        | some (kchars, r1) =>
          match skipWs r1 with
          | d :: r2 =>
            if d = ':' then
              match parseStep fuel (PTask.value r2) with
              | some (v, r3) =>
                match skipWs r3 with
                | e :: r4 =>
                  if e = ',' then
                    parseStep fuel (PTask.members (skipWs r4) (assocSet acc (String.mk kchars) v))
                  else if e = braceR then
                    some (Json.obj (assocSet acc (String.mk kchars) v), r4)
                  else none
                | [] => none
              | none => none
            else none
          | [] => none
        | none => none
      else none
  | fuel + 1, PTask.elems cs acc =>
    match parseStep fuel (PTask.value cs) with
    | some (v, r1) =>
      match skipWs r1 with
      | c :: r2 =>
        if c = ',' then parseStep fuel (PTask.elems (skipWs r2) (acc ++ [v]))
        else if c = ']' then some (Json.arr (acc ++ [v]), r2)
        else none
      | [] => none
    | none => none

/-- Model of `JSON.parse`: parse one value and require only whitespace
after it; any failure is `none` (a thrown `SyntaxError`). -/
def jsonParse (s : String) : Option Json :=
  let cs := s.toList
  match parseStep (cs.length + 8) (PTask.value cs) with
  | some (j, rest) => if (skipWs rest).isEmpty then some j else none
  | none => none

/-- JavaScript `value && typeof value === 'object'`: objects and arrays
qualify, `null` is falsy, primitives have a different `typeof`. -/
def isTruthyObject : Json → Bool
  | Json.obj _ => true
  | Json.arr _ => true
  | _ => false

/-- Property access on a parsed JSON value: only objects have named
fields (arrays and primitives yield `undefined`). -/
def getField : Json → String → Option Json
  | Json.obj fields, k => lookupAssoc fields k
  | _, _ => none

/-- The `sdkError.error.message` branch of the error refinement in
`index.tsx`: requires a truthy object with a truthy-object `error` field
carrying a string `message`. -/
def refineNested (j : Json) : Option String :=
  if isTruthyObject j then
    match getField j "error" with
    | some e =>
      if isTruthyObject e then
        match getField e "message" with
        | some (Json.str m) => some m
        | _ => none
      else none
    | none => none
  else none

/-- The `sdkError.message` branch of the error refinement. -/
def refineTopLevel (j : Json) : Option String :=
  if isTruthyObject j then
    match getField j "message" with
    | some (Json.str m) => some m
    | _ => none
  else none

/-- `refinedMessageFromSdkJson` of `index.tsx`: nested `error.message`
first, else a top-level `message`. -/
def refinedMessageFromSdkJson (j : Json) : Option String :=
  match refineNested j with
  | some m => some m
  | none => refineTopLevel j

/-- A caught JavaScript error value, by the shape the extraction in
`index.tsx` distinguishes: a native `Error`, a raw string, a non-`Error`
object with a string `message` field, or anything else (carrying the
`JSON.stringify` result when it does not throw, and the `String(e)`
fallback). -/
inductive ErrVal where
  | errObj (message : String)
  | str (s : String)
  | objWithMessage (message : String)
  | other (stringified : Option String) (asString : String)

/-- The base error text extracted by precedence in the catch block of
`sendMessageHandler`. -/
def baseErrorText : ErrVal → String
  | ErrVal.errObj m => m
  | ErrVal.str s => s
  | ErrVal.objWithMessage m => m
  | ErrVal.other (some j) _ => "Unexpected error: " ++ j
  | ErrVal.other none f => "Unexpected error: " ++ f

/-- The JSON-envelope refinement of `index.tsx`: take the substring from
the first brace to the last brace (when the last is after the first),
try `JSON.parse`, and prefer a truthy refined message; any failure keeps
the base text. -/
def refineErrorMessage (base : String) : String :=
  let cs := base.toList
  match idxOfChar braceL cs, lastIdxOfChar braceR cs with
  | some i, some j =>
    if i < j then
      match jsonParse (String.mk ((cs.drop i).take (j + 1 - i))) with
      | some sdkError =>
        match refinedMessageFromSdkJson sdkError with
        | some m => if m = "" then base else m
        | none => base
      | none => base
    else base
  | some _, none => base
  | none, _ => base

/-- The rendered error text of a caught streaming error. -/
def renderedErrorText (e : ErrVal) : String :=
  "Error: " ++ refineErrorMessage (baseErrorText e)

/-- `ChatState` of `map_app`. -/
inductive ChatState where
  | IDLE
  | GENERATING
  | THINKING
  | EXECUTING
  deriving DecidableEq, Repr

/-- A chat message as `addMessage` builds it: the turn `div` holds a
`details` thinking section (content, `hidden` class, `open` attribute)
and a text element whose `innerHTML` is tracked in `html`. -/
structure Msg where
  role : String
  thinkingHtml : String
  thinkingHidden : Bool
  thinkingOpen : Bool
  html : String
  deriving DecidableEq, Repr

/-- `addMessage(role, message)` of `map_app`: a fresh message with an
empty, closed, visible thinking section. -/
def mkMessage (role html : String) : Msg :=
  { role := role, thinkingHtml := "", thinkingHidden := false, thinkingOpen := false, html := html }

/-- Serialized `innerHTML` of a whole message `div`, as scanned by the
`hasFunctionCallMessage` check of `index.tsx` (the constant wrapper
markup separates the thinking content from the text content). -/
def msgInnerHtml (m : Msg) : String :=
  "<details class=\"thinking\"><summary>Thinking process</summary><div>"
    ++ m.thinkingHtml
    ++ "</div></details><div class=\"text\">"
    ++ m.html
    ++ "</div>"

/-- The chat-facing state of the `MapApp` component. -/
structure ChatAppState where
  chatState : ChatState
  inputMessage : String
  messages : List Msg
  shouldSpeakNextResponse : Bool
  spokenTexts : List String
  deriving DecidableEq, Repr

/-- External pure collaborators of the chat turn: `marked.parse` (markdown
to HTML) and `JSON.stringify` of the displayed tool call (already split
into converted name and argument object). -/
structure ChatEnv where
  markedParse : String → String
  stringifyCall : String → String → String

/-- A streamed function call: name and an opaque rendering of its
argument object. -/
structure FnCall where
  name : String
  args : String

/-- A grounding chunk's `web` field: optional URI and title. -/
structure GroundingWeb where
  uri : Option String
  title : Option String

/-- One streamed `Part`: any of a function call, a thought fragment and a
text fragment may be present. -/
structure StreamPart where
  functionCall : Option FnCall
  thought : Option String
  text : Option String

/-- One streamed candidate: optional grounding chunks and its parts
(`candidate.content?.parts ?? []`). -/
structure Candidate where
  groundingChunks : Option (List GroundingWeb)
  parts : List StreamPart

/-- One chunk of the response stream (`chunk.candidates ?? []`). -/
structure StreamChunk where
  candidates : List Candidate

/-- The outcome of consuming the stream: either it completes after a list
of chunks, or it throws after a consumed prefix of chunks. -/
inductive StreamOutcome where
  | ok (chunks : List StreamChunk)
  | err (consumed : List StreamChunk) (e : ErrVal)

/-- The per-turn mutable context of `sendMessageHandler`: the answer
message under construction, messages appended during the turn, the
accumulators, the chat state, and the speech fields of the app. -/
structure TurnState where
  chatState : ChatState
  answer : Msg
  appended : List Msg
  newCode : String
  thoughtAccumulator : String
  uniqueSources : List (String × String)
  shouldSpeak : Bool
  spoken : List String

/-- Start of a turn: append the assistant answer message, set
`GENERATING`, and show the `...` placeholder. -/
def initTurn (s : ChatAppState) : TurnState :=
  { chatState := ChatState.GENERATING
    answer := mkMessage "assistant" "..."
    appended := []
    newCode := ""
    thoughtAccumulator := ""
    uniqueSources := []
    shouldSpeak := s.shouldSpeakNextResponse
    spoken := s.spokenTexts }

/-- A truthy (uri, title) pair of a grounding chunk, if both fields are
truthy. -/
def groundingPairOf (g : GroundingWeb) : Option (String × String) :=
  if truthyStr g.uri && truthyStr g.title then
    some (g.uri.getD "", g.title.getD "")
  else none

/-- Record one grounding chunk in the per-turn `uniqueSources` map. -/
def processGroundingChunk (t : TurnState) (g : GroundingWeb) : TurnState :=
  match groundingPairOf g with
  | some p => { t with uniqueSources := assocSet t.uniqueSources p.1 p.2 }
  | none => t

/-- Render and append the synthetic assistant message for a streamed
function call. -/
def processFunctionCall (env : ChatEnv) (fc : FnCall) (t : TurnState) : TurnState :=
  { t with
      appended := t.appended ++
        [mkMessage "assistant"
          (env.markedParse
            ("Calling function:\n```json\n"
              ++ env.stringifyCall (camelCaseToDash fc.name) fc.args
              ++ "\n```"))] }

/-- A thought fragment: state `THINKING`, extend the thinking buffer,
re-render it, reveal and open the thinking section. -/
def processThought (env : ChatEnv) (th : String) (t : TurnState) : TurnState :=
  { t with
      chatState := ChatState.THINKING
      thoughtAccumulator := t.thoughtAccumulator ++ " " ++ th
      answer := { t.answer with
        thinkingHtml := env.markedParse (t.thoughtAccumulator ++ " " ++ th)
        thinkingHidden := false
        thinkingOpen := true } }

/-- A text fragment: state `EXECUTING`, extend the answer buffer and
re-render the answer. -/
def processText (env : ChatEnv) (tx : String) (t : TurnState) : TurnState :=
  { t with
      chatState := ChatState.EXECUTING
      newCode := t.newCode ++ tx
      answer := { t.answer with html := env.markedParse (t.newCode ++ tx) } }

/-- Process one streamed part, in source order: function call first, then
thought else text. -/
def processPart (env : ChatEnv) (t : TurnState) (p : StreamPart) : TurnState :=
  let t1 := match p.functionCall with
    | some fc => processFunctionCall env fc t
    | none => t
  if truthyStr p.thought then processThought env (p.thought.getD "") t1
  else if truthyStr p.text then processText env (p.text.getD "") t1
  else t1

/-- Process one candidate: grounding metadata, then its parts. -/
def processCandidate (env : ChatEnv) (t : TurnState) (c : Candidate) : TurnState :=
  let t1 := match c.groundingChunks with
    | some gs => gs.foldl processGroundingChunk t
    | none => t
  c.parts.foldl (processPart env) t1

/-- Process one stream chunk. -/
def processChunk (env : ChatEnv) (t : TurnState) (ch : StreamChunk) : TurnState :=
  ch.candidates.foldl (processCandidate env) t

/-- Process a list of stream chunks in arrival order. -/
def processChunks (env : ChatEnv) (t : TurnState) (chunks : List StreamChunk) : TurnState :=
  chunks.foldl (processChunk env) t

/-- `speak` strips basic markdown characters before synthesis. -/
def speakClean (s : String) : String :=
  String.mk (s.toList.filter (fun c =>
    !(c == '*' || c == '#' || c == '_' || c == '`' || c == '[' || c == ']' || c == '(' || c == ')')))

/-- The streaming phase of a turn: consume the chunks; on normal
completion optionally speak the final text, on a thrown error append the
rendered error message (role `error`). -/
def runStreamPhase (env : ChatEnv) (outcome : StreamOutcome) (t : TurnState) : TurnState :=
  match outcome with
  | StreamOutcome.ok chunks =>
    let t1 := processChunks env t chunks
    if t1.shouldSpeak && t1.newCode != "" then
      { t1 with spoken := t1.spoken ++ [speakClean t1.newCode], shouldSpeak := false }
    else t1
  | StreamOutcome.err chunks e =>
    let t1 := processChunks env t chunks
    { t1 with appended := t1.appended ++ [mkMessage "error" (env.markedParse (renderedErrorText e))] }

/-- The rendered `Sources` block appended at turn end. -/
def sourceChip (uri title : String) : String :=
  "<a href=\"" ++ uri ++ "\" target=\"_blank\" class=\"source-chip\" title=\""
    ++ title ++ "\">" ++ title ++ "</a>"

/-- The full `Sources` block for the collected grounding sources, in map
iteration (insertion) order. -/
def sourcesHtml (srcs : List (String × String)) : String :=
  "<div class=\"grounding-sources\"><h3>Sources:</h3><div class=\"source-chips\">"
    ++ String.join (srcs.map (fun p => sourceChip p.1 p.2))
    ++ "</div></div>"

/-- The final answer rewrite of `index.tsx` (lines 276-288): when the
answer is only the placeholder or trims to empty, replace it by the
rendered `Done.` unless some scanned message contains the tool-call
marker; in that case clear a bare placeholder. -/
def finalizeAnswerHtml (doneHtml html : String) (hasFunctionCallMessage : Bool) : String :=
  if jsTrim html = "..." ∨ (jsTrim html).length = 0 then
    if !hasFunctionCallMessage then doneHtml
    else if jsTrim html = "..." then "" else html
  else html

/-- Post-processing of a turn: collapse or hide the thinking section,
append the sources block once, then apply the final answer rewrite.  The
tool-call scan ranges over all messages of the session (`mapApp.messages`),
including those of earlier turns. -/
def postProcess (env : ChatEnv) (priorMessages : List Msg) (t : TurnState) : TurnState :=
  let t1 :=
    if t.answer.thinkingOpen then
      { t with answer := { t.answer with
          thinkingHidden := if t.thoughtAccumulator = "" then true else t.answer.thinkingHidden
          thinkingOpen := false } }
    else t
  let t2 :=
    if t1.uniqueSources.length > 0 then
      { t1 with answer := { t1.answer with html := t1.answer.html ++ sourcesHtml t1.uniqueSources } }
    else t1
  let hasFC := (priorMessages ++ t2.answer :: t2.appended).any
    (fun m => jsIncludes (msgInnerHtml m) "Calling function:")
  { t2 with answer := { t2.answer with
      html := finalizeAnswerHtml (env.markedParse "Done.") t2.answer.html hasFC } }

/-- `sendMessageHandler` of `index.tsx`: run one chat turn for the given
stream outcome.  The `finally` block resets the chat state to `IDLE`
regardless of how the turn ended. -/
def sendMessageHandler (env : ChatEnv) (outcome : StreamOutcome)
    (_input _role : String) (s : ChatAppState) : ChatAppState :=
  let t := postProcess env s.messages (runStreamPhase env outcome (initTurn s))
  { s with
      messages := s.messages ++ t.answer :: t.appended
      chatState := ChatState.IDLE
      shouldSpeakNextResponse := t.shouldSpeak
      spokenTexts := t.spoken }

/-- `sendMessageAction` of `map_app`: the turn entry point.  `handler` is
the installed `sendMessageHandler` (or `none` before installation) and
`nextPrompt` the random example prompt `setNewRandomPrompt` would pick. -/
def sendMessageAction (env : ChatEnv)
    (handler : Option (String → String → ChatAppState → ChatAppState))
    (nextPrompt : String) (messageArg roleArg : Option String)
    (s : ChatAppState) : ChatAppState :=
  if s.chatState ≠ ChatState.IDLE then s
  else
    let picked : String × Bool × ChatAppState :=
      if truthyStr messageArg then (jsTrim (messageArg.getD ""), false, s)
      else
        let tmsg := jsTrim s.inputMessage
        if tmsg.length > 0 then (tmsg, true, { s with inputMessage := "" })
        else if (jsTrim s.inputMessage).length = 0 ∧ s.inputMessage.length > 0 then
          (tmsg, true, { s with inputMessage := "" })
        else (tmsg, false, s)
    let msg := picked.1
    let usedComponentInput := picked.2.1
    let s1 := picked.2.2
    if msg.length = 0 then
      if usedComponentInput then { s1 with inputMessage := nextPrompt } else s1
    else
      let msgRole := if truthyStr roleArg then jsToLower (roleArg.getD "") else "user"
      let s2 :=
        if msgRole = "user" ∧ msg ≠ "" then
          { s1 with messages := s1.messages ++ [mkMessage msgRole (env.markedParse msg)] }
        else s1
      let s3 := match handler with
        | some h => h msg msgRole s2
        | none => s2
      if usedComponentInput then { s3 with inputMessage := nextPrompt } else s3

/-- Truthy (uri, title) pairs of one candidate, in order. -/
def candPairs (c : Candidate) : List (String × String) :=
  (c.groundingChunks.getD []).filterMap groundingPairOf

/-- All truthy grounding (uri, title) pairs of a stream, in arrival
order. -/
def groundingPairs (chunks : List StreamChunk) : List (String × String) :=
  ((chunks.map (fun ch => ((ch.candidates.map candPairs).flatten))).flatten)

/-- The per-turn grounding-source map accumulated by the handler:
`Map.set` over the truthy pairs in arrival order. -/
def collectTurnSources (chunks : List StreamChunk) : List (String × String) :=
  (groundingPairs chunks).foldl (fun m p => assocSet m p.1 p.2) []

/-- The chat tabs of `map_app`. -/
inductive ChatTab where
  | GEMINI
  | BUCKET_LIST
  deriving DecidableEq, Repr

/-- A latitude/longitude pair.  Coordinates are opaque to all modelled
logic (no arithmetic is performed on them), so `Int` stands in for the
JavaScript number type. -/
structure LatLng where
  lat : Int
  lng : Int
  deriving DecidableEq, Repr

/-- `BucketItem` of `map_app`. -/
structure BucketItem where
  id : String
  name : String
  lat : Int
  lng : Int
  notes : Option String
  addedAt : Nat
  deriving DecidableEq, Repr

/-- A `Marker3DElement` on the map.  `stamp` models object identity: each
`new Marker3DElement()` gets a fresh stamp, so an unchanged stamp means
the marker was not recreated. -/
structure Marker3D where
  stamp : Nat
  lat : Int
  lng : Int
  altitude : Int
  label : String
  gold : Bool
  deriving DecidableEq, Repr

/-- A recorded `flyCameraTo` call of `performFlyTo`. -/
structure FlyTo where
  lat : Int
  lng : Int
  altitude : ℚ
  heading : ℚ
  tilt : ℚ
  range : ℚ
  durationMillis : Nat
  deriving DecidableEq, Repr

/-- A deferred `setTimeout` callback scheduled by a handler; the model
records it without executing it (it runs after the dispatch returns). -/
inductive TimerAction where
  | toggleExploration (delayMs : Nat)
  | panoResize (delayMs : Nat)
  | narrationTrigger (delayMs : Nat)
  deriving DecidableEq, Repr

/-- The map-facing state of the `MapApp` component (the fields the map
query router reads or writes).  `flights` records camera movements,
`panoRequests` records `getPanorama` lookups (their asynchronous
callbacks are external), and `sysMessages` records the texts of messages
the handlers add. -/
structure MapAppState where
  mapInitialized : Bool
  mapReady : Bool
  geocoderReady : Bool
  marker3DReady : Bool
  directionsReady : Bool
  streetViewReady : Bool
  bucketList : List BucketItem
  bucketMarkers : List (String × Marker3D)
  markerStamp : Nat
  selectedChatTab : ChatTab
  searchMarker : Option Marker3D
  routePolyline : Option (List LatLng)
  originMarker : Option Marker3D
  destinationMarker : Option Marker3D
  routePath : List LatLng
  flights : List FlyTo
  panoRequests : List LatLng
  currentLocation : Option LatLng
  currentLocationName : Option String
  showWeather : Bool
  showPano : Bool
  isExplorationMode : Bool
  isAvatarMode : Bool
  isOrbiting : Bool
  isSimulating : Bool
  orbitLoopRunning : Bool
  isListening : Bool
  avatarLat : Int
  avatarLng : Int
  sysMessages : List String
  pendingTimers : List TimerAction
  deriving DecidableEq, Repr

/-- External services of the map model: geocoding and routing results
(delivered by callback in the source, folded in sequentially here), the
next `crypto.randomUUID()` and `Date.now()` values. -/
structure RouteResult where
  overviewPath : List LatLng
  startLocation : Option LatLng
  endLocation : Option LatLng
  boundsCenter : Option LatLng
  deriving DecidableEq, Repr

/-- Environment of a dispatched map query. -/
structure MapEnv where
  geocode : String → Option LatLng
  route : String → String → Option RouteResult
  newUuid : String
  nowMs : Nat

/-- `MapParams` of `mcp_maps_server.ts`. -/
inductive MapCommand where
  | VIEW
  | DIRECTIONS
  | ADD_BUCKET
  | REMOVE_BUCKET
  | EXPLORE
  | ORBIT
  deriving DecidableEq, Repr

/-- The normalized map query record. -/
structure MapParams where
  command : MapCommand
  location : Option String
  origin : Option String
  destination : Option String
  notes : Option String
  deriving DecidableEq, Repr

/-- The camera options `performFlyTo` passes to `flyCameraTo`: altitude
0, heading 0, caller-chosen tilt and range, 1500 ms duration. -/
def flyRecord (lat lng : Int) (range tilt : ℚ) : FlyTo :=
  { lat := lat, lng := lng, altitude := 0, heading := 0, tilt := tilt,
    range := range, durationMillis := 1500 }

/-- `performFlyTo` of `map_app`: records a `flyCameraTo` call when the
map is present. -/
def performFlyTo (lat lng : Int) (range tilt : ℚ) (s : MapAppState) : MapAppState :=
  if s.mapReady then
    { s with flights := s.flights ++ [flyRecord lat lng range tilt] }
  else s

/-- `_clearTemporaryMapElements` of `map_app`. -/
def clearTemporaryMapElements (s : MapAppState) : MapAppState :=
  { s with searchMarker := none, routePolyline := none, originMarker := none,
           destinationMarker := none, routePath := [] }

/-- `_searchAndShowPano`: records the street-view lookup; its callback
(showing or hiding the panorama) is asynchronous and external. -/
def searchAndShowPano (lat lng : Int) (s : MapAppState) : MapAppState :=
  if s.streetViewReady then
    { s with panoRequests := s.panoRequests ++ [{ lat := lat, lng := lng }] }
  else s

/-- `_handleViewLocation` of `map_app`, with the geocoder callback folded
in: on success fly to the location, request a panorama, update the
current-location state and place a fresh search marker. -/
def handleViewLocation (env : MapEnv) (q : String) (s : MapAppState) : MapAppState :=
  if s.mapInitialized ∧ s.mapReady ∧ s.geocoderReady then
    let s1 := clearTemporaryMapElements s
    match env.geocode q with
    | some loc =>
      let s2 := performFlyTo loc.lat loc.lng 2000 (67.5 : ℚ) s1
      let s3 := searchAndShowPano loc.lat loc.lng s2
      let s4 := { s3 with
        currentLocation := some loc
        currentLocationName := some q
        showWeather := false
        avatarLat := loc.lat
        avatarLng := loc.lng }
      let m : Marker3D :=
        { stamp := s4.markerStamp, lat := loc.lat, lng := loc.lng,
          altitude := 0, label := q, gold := false }
      { s4 with searchMarker := some m, markerStamp := s4.markerStamp + 1 }
    | none => s1
  else s

/-- `_handleAddToBucketList` of `map_app`: not-ready guard, then the
case-insensitive existing-name check (treated as a view plus a tab
switch), else geocode and append a new item. -/
def handleAddToBucketList (env : MapEnv) (q : String) (notes : Option String)
    (s : MapAppState) : MapAppState :=
  if ¬(s.mapInitialized ∧ s.geocoderReady) then
    { s with sysMessages := s.sysMessages ++ ["Cannot add to list: Map services not ready."] }
  else if s.bucketList.any (fun item => jsToLower item.name == jsToLower q) then
    let s1 := handleViewLocation env q s
    { s1 with selectedChatTab := ChatTab.BUCKET_LIST }
  else
    match env.geocode q with
    | some loc =>
      let newItem : BucketItem :=
        { id := env.newUuid, name := q, lat := loc.lat, lng := loc.lng,
          notes := notes, addedAt := env.nowMs }
      let s1 := { s with bucketList := s.bucketList ++ [newItem],
                         selectedChatTab := ChatTab.BUCKET_LIST }
      let s2 := performFlyTo loc.lat loc.lng 2000 (67.5 : ℚ) s1
      let s3 := searchAndShowPano loc.lat loc.lng s2
      { s3 with currentLocation := some loc, currentLocationName := some q,
                showWeather := false }
    | none => s

/-- `_handleRemoveFromBucketList` of `map_app`: keep the items whose
lowercased name does not contain the lowercased query, and switch to the
bucket tab only when the list shrank. -/
def handleRemoveFromBucketList (q : String) (s : MapAppState) : MapAppState :=
  let lowerQuery := jsToLower q
  let initialLen := s.bucketList.length
  let s1 := { s with bucketList :=
    s.bucketList.filter (fun item => !(jsIncludes (jsToLower item.name) lowerQuery)) }
  if s1.bucketList.length < initialLen then
    { s1 with selectedChatTab := ChatTab.BUCKET_LIST }
  else s1

/-- The gold bucket marker `syncBucketMarkers` creates for an item; the
stamp is the marker's object identity. -/
def mkBucketMarker (item : BucketItem) (st : Nat) : Marker3D :=
  { stamp := st, lat := item.lat, lng := item.lng, altitude := 0,
    label := item.name, gold := true }

/-- Phase 2 of `syncBucketMarkers`: walk the bucket list and create a
fresh gold marker for every id that has none yet, threading the stamp
counter. -/
def addMissingMarkers : List BucketItem → List (String × Marker3D) → Nat →
    List (String × Marker3D) × Nat
  | [], acc, st => (acc, st)
  | item :: rest, acc, st =>
    if acc.any (fun pr => pr.1 == item.id) then addMissingMarkers rest acc st
    else addMissingMarkers rest (acc ++ [(item.id, mkBucketMarker item st)]) (st + 1)

/-- `syncBucketMarkers` of `map_app`: when the map and the marker class
are ready, drop markers whose id left the list, then add markers for new
ids; existing markers are untouched. -/
def syncBucketMarkers (s : MapAppState) : MapAppState :=
  if s.mapReady ∧ s.marker3DReady then
    let currentIds := s.bucketList.map (fun i => i.id)
    let kept := s.bucketMarkers.filter (fun pr => currentIds.contains pr.1)
    let res := addMissingMarkers s.bucketList kept s.markerStamp
    { s with bucketMarkers := res.1, markerStamp := res.2 }
  else s

/-- `toggleExplorationMode` of `map_app` (speech-engine calls are
external; the scheduled resize and narration timers are recorded). -/
def toggleExplorationMode (s : MapAppState) : MapAppState :=
  if ¬s.showPano ∧ ¬s.isExplorationMode ∧ s.currentLocation = none then
    { s with sysMessages := s.sysMessages ++ ["Please select a location to explore first."] }
  else
    let s1 := { s with isExplorationMode := !s.isExplorationMode }
    if s1.isExplorationMode then
      let s2 := { s1 with isAvatarMode := false,
                          pendingTimers := s1.pendingTimers ++ [TimerAction.panoResize 100] }
      let s3 := match s2.currentLocation with
        | some loc => { s2 with avatarLat := loc.lat, avatarLng := loc.lng }
        | none => s2
      { s3 with pendingTimers := s3.pendingTimers ++ [TimerAction.narrationTrigger 1500] }
    else
      { s1 with isListening := false, isAvatarMode := false, isOrbiting := false }

/-- `toggleOrbit` of `map_app`: flip the flag; when turning on, stop any
simulation and (outside avatar mode) start the standalone orbit loop;
when turning off, stop it. -/
def toggleOrbit (s : MapAppState) : MapAppState :=
  let s1 := { s with isOrbiting := !s.isOrbiting }
  if s1.isOrbiting then
    let s2 := { s1 with isSimulating := false }
    if ¬s2.isAvatarMode then { s2 with orbitLoopRunning := true } else s2
  else
    if ¬s1.isAvatarMode then { s1 with orbitLoopRunning := false } else s1

/-- `_handleDirections` of `map_app`, with the directions callback folded
in. -/
def handleDirections (env : MapEnv) (o d : String) (s : MapAppState) : MapAppState :=
  if s.mapInitialized ∧ s.mapReady ∧ s.directionsReady then
    let s1 := clearTemporaryMapElements s
    match env.route o d with
    | some r =>
      let s2 := { s1 with routePolyline := some r.overviewPath, routePath := r.overviewPath }
      let s3 := match r.startLocation with
        | some l =>
          let m : Marker3D :=
            { stamp := s2.markerStamp, lat := l.lat, lng := l.lng, altitude := 0,
              label := "Origin", gold := false }
          { s2 with originMarker := some m, markerStamp := s2.markerStamp + 1 }
        | none => s2
      let s4 := match r.endLocation with
        | some l =>
          let m : Marker3D :=
            { stamp := s3.markerStamp, lat := l.lat, lng := l.lng, altitude := 0,
              label := "Destination", gold := false }
          { s3 with destinationMarker := some m, markerStamp := s3.markerStamp + 1 }
        | none => s3
      match r.boundsCenter with
      | some c =>
        let s5 := performFlyTo c.lat c.lng 10000 (45 : ℚ) s4
        { s5 with currentLocation := some c,
                  currentLocationName := some ("Route to " ++ d),
                  showWeather := false }
      | none => s4
    | none => s1
  else s

/-- The `EXPLORE` branch of `handleMapQuery`. -/
def exploreCommand (env : MapEnv) (s : MapAppState) : MapAppState :=
  if ¬s.showPano then
    match s.currentLocation with
    | some loc =>
      let s1 := searchAndShowPano loc.lat loc.lng s
      { s1 with pendingTimers := s1.pendingTimers ++ [TimerAction.toggleExploration 500] }
    | none =>
      let s1 := handleViewLocation env "Times Square, New York" s
      { s1 with pendingTimers := s1.pendingTimers ++ [TimerAction.toggleExploration 2000] }
  else if ¬s.isExplorationMode then toggleExplorationMode s
  else s

/-- `handleMapQuery` of `map_app`: dispatch on the command, guarded by
the truthiness of the required arguments. -/
def handleMapQuery (env : MapEnv) (p : MapParams) (s : MapAppState) : MapAppState :=
  match p.command with
  | MapCommand.VIEW =>
    if truthyStr p.location then handleViewLocation env (p.location.getD "") s else s
  | MapCommand.DIRECTIONS =>
    if truthyStr p.origin && truthyStr p.destination then
      handleDirections env (p.origin.getD "") (p.destination.getD "") s
    else s
  | MapCommand.ADD_BUCKET =>
    if truthyStr p.location then handleAddToBucketList env (p.location.getD "") p.notes s else s
  | MapCommand.REMOVE_BUCKET =>
    if truthyStr p.location then handleRemoveFromBucketList (p.location.getD "") s else s
  | MapCommand.EXPLORE => exploreCommand env s
  | MapCommand.ORBIT => if ¬s.isOrbiting then toggleOrbit s else s

/-- The value of the last pair carrying the given key, if any — the title
a `Map.set` fold leaves associated with a URI. -/
def lastTitleFor (u : String) : List (String × String) → Option String
  | [] => none
  | p :: rest =>
    match lastTitleFor u rest with
    | some v => some v
    | none => if p.1 = u then some p.2 else none

/-- A chat environment for concrete runs: markdown rendering and call
serialization are plain functions. -/
def plainChatEnv : ChatEnv :=
  { markedParse := fun s => s, stringifyCall := fun n a => n ++ " " ++ a }

/-- An idle chat state with no history. -/
def emptyChatState : ChatAppState :=
  { chatState := ChatState.IDLE, inputMessage := "", messages := [],
    shouldSpeakNextResponse := false, spokenTexts := [] }

/-- A chat state mid-generation, with a draft in the input field. -/
def busyChatState : ChatAppState :=
  { emptyChatState with
      chatState := ChatState.GENERATING
      inputMessage := "draft text"
      messages := [mkMessage "user" "hi"] }

/-- A rendered tool-call message left by an earlier turn. -/
def priorToolCallMsg : Msg :=
  mkMessage "assistant" "Calling function:\n<code>view-location-google-maps</code>"

/-- A session whose history contains a tool-call message from an earlier
turn, currently idle. -/
def sessionAfterToolCall : ChatAppState :=
  { emptyChatState with messages := [priorToolCallMsg] }

/-- One stream chunk carrying a single grounding source. -/
def groundingChunk (uri title : String) : StreamChunk :=
  { candidates := [{ groundingChunks := some [{ uri := some uri, title := some title }], parts := [] }] }

/-- A map environment whose lookups all fail. -/
def emptyMapEnv : MapEnv :=
  { geocode := fun _ => none, route := fun _ _ => none, newUuid := "uuid-0", nowMs := 0 }

/-- A map environment that geocodes every query to one fixed location. -/
def parisMapEnv : MapEnv :=
  { emptyMapEnv with geocode := fun _ => some { lat := 48, lng := 2 } }

/-- A map-app state with nothing loaded or stored. -/
def baseMapState : MapAppState :=
  { mapInitialized := false, mapReady := false, geocoderReady := false,
    marker3DReady := false, directionsReady := false, streetViewReady := false,
    bucketList := [], bucketMarkers := [], markerStamp := 0,
    selectedChatTab := ChatTab.GEMINI, searchMarker := none, routePolyline := none,
    originMarker := none, destinationMarker := none, routePath := [], flights := [],
    panoRequests := [], currentLocation := none, currentLocationName := none,
    showWeather := false, showPano := false, isExplorationMode := false,
    isAvatarMode := false, isOrbiting := false, isSimulating := false,
    orbitLoopRunning := false, isListening := false, avatarLat := 0, avatarLng := 0,
    sysMessages := [], pendingTimers := [] }

/-- A map-app state with every service loaded. -/
def readyMapState : MapAppState :=
  { baseMapState with
      mapInitialized := true, mapReady := true, geocoderReady := true,
      marker3DReady := true, directionsReady := true, streetViewReady := true }

/-- A stored bucket item. -/
def parisItem : BucketItem :=
  { id := "id-paris", name := "Paris", lat := 48, lng := 2, notes := none, addedAt := 0 }

/-- A ready state whose bucket list holds one item. -/
def oneItemMapState : MapAppState :=
  { readyMapState with bucketList := [parisItem] }

/-- The on-map marker of the stored item. -/
def parisMarker : Marker3D :=
  { stamp := 0, lat := 48, lng := 2, altitude := 0, label := "Paris", gold := true }

/-- A marker whose item has been removed from the list. -/
def staleMarker : Marker3D :=
  { stamp := 1, lat := 5, lng := 6, altitude := 0, label := "Old", gold := true }

/-- A ready state with one live marker and one stale marker. -/
def staleMarkerMapState : MapAppState :=
  { readyMapState with
      bucketList := [parisItem]
      bucketMarkers := [("id-paris", parisMarker), ("id-old", staleMarker)]
      markerStamp := 2 }

/-- C1: every run of a chat turn — whether the stream completes normally
or any error is thrown and caught — ends with `ChatState` set to `IDLE`;
no error path leaves it at `GENERATING`, `THINKING` or `EXECUTING`. -/
theorem c1_sendMessageHandler_ends_idle (env : ChatEnv) (outcome : StreamOutcome)
    (input role : String) (s : ChatAppState) :
    (sendMessageHandler env outcome input role s).chatState = ChatState.IDLE := rfl

/-- C2: calling `sendMessageAction` while `ChatState` is not `IDLE` is a
no-op for every installed handler — no message is appended, the input
field is untouched, and no turn is started or queued. -/
theorem c2_sendMessageAction_noop_when_busy (env : ChatEnv)
    (handler : Option (String → String → ChatAppState → ChatAppState))
    (nextPrompt : String) (messageArg roleArg : Option String) (s : ChatAppState)
    (h : s.chatState ≠ ChatState.IDLE) :
    sendMessageAction env handler nextPrompt messageArg roleArg s = s := by
  unfold sendMessageAction
  rw [if_pos h]

/-- Witness for C2 at a concrete mid-generation state. -/
theorem c2_sendMessageAction_noop_witness :
    sendMessageAction plainChatEnv none "Take me to Santorini, Greece." none none busyChatState
      = busyChatState :=
  c2_sendMessageAction_noop_when_busy plainChatEnv none "Take me to Santorini, Greece."
    none none busyChatState (by decide)

theorem isUpperAZ_jsToLowerChar (c : Char) : isUpperAZ (jsToLowerChar c) = false := by
  unfold jsToLowerChar
  split
  · rename_i h
    have hv : (c.toNat + 32).isValidChar := Or.inl (by omega)
    have ht : (Char.ofNat (c.toNat + 32)).toNat = c.toNat + 32 := by
      rw [Char.ofNat, dif_pos hv]
      simp [Char.ofNatAux, Char.toNat, UInt32.toNat, BitVec.toNat_ofNatLt]
    unfold isUpperAZ
    rw [ht]
    apply decide_eq_false
    omega
  · rename_i h
    unfold isUpperAZ
    exact decide_eq_false h

theorem jsToLowerChar_fix (c : Char) (h : isUpperAZ c = false) : jsToLowerChar c = c := by
  unfold jsToLowerChar
  rw [if_neg]
  unfold isUpperAZ at h
  exact of_decide_eq_false h

theorem dashLowerUpper_fix :
    ∀ l : List Char, (∀ c ∈ l, isUpperAZ c = false) → dashLowerUpper l = l := by
  intro l
  induction l with
  | nil => intro _; rfl
  | cons a t ih =>
    intro h
    cases t with
    | nil => rfl
    | cons b t2 =>
      have hb : isUpperAZ b = false := h b (by simp)
      have hstep : dashLowerUpper (a :: b :: t2) = a :: dashLowerUpper (b :: t2) := by
        simp [dashLowerUpper, hb]
      rw [hstep, ih (fun x hx => h x (List.mem_cons_of_mem a hx))]

theorem dashUpperUpperLower_fix :
    ∀ l : List Char, (∀ c ∈ l, isUpperAZ c = false) → dashUpperUpperLower l = l := by
  intro l
  induction l with
  | nil => intro _; rfl
  | cons a t ih =>
    intro h
    cases t with
    | nil => rfl
    | cons b t2 =>
      cases t2 with
      | nil => rfl
      | cons c t3 =>
        have ha : isUpperAZ a = false := h a (by simp)
        have hstep : dashUpperUpperLower (a :: b :: c :: t3)
            = a :: dashUpperUpperLower (b :: c :: t3) := by
          simp [dashUpperUpperLower, ha]
        rw [hstep, ih (fun x hx => h x (List.mem_cons_of_mem a hx))]

theorem map_jsToLowerChar_fix :
    ∀ l : List Char, (∀ c ∈ l, isUpperAZ c = false) → l.map jsToLowerChar = l := by
  intro l
  induction l with
  | nil => intro _; rfl
  | cons a t ih =>
    intro h
    simp only [List.map_cons]
    rw [jsToLowerChar_fix a (h a (by simp)), ih (fun x hx => h x (List.mem_cons_of_mem a hx))]

theorem noUpper_map_jsToLowerChar (l : List Char) :
    ∀ c ∈ l.map jsToLowerChar, isUpperAZ c = false := by
  intro c hc
  rcases List.mem_map.mp hc with ⟨d, _, rfl⟩
  exact isUpperAZ_jsToLowerChar d

theorem camelCaseToDash_idem (s : String) :
    camelCaseToDash (camelCaseToDash s) = camelCaseToDash s := by
  unfold camelCaseToDash
  have htl : ∀ l : List Char, (String.mk l).toList = l := fun _ => rfl
  rw [htl]
  have hnu := noUpper_map_jsToLowerChar (dashUpperUpperLower (dashLowerUpper s.toList))
  rw [dashLowerUpper_fix _ hnu, dashUpperUpperLower_fix _ hnu, map_jsToLowerChar_fix _ hnu]

/-- C6 counterexample: the transform is not lossless on identifiers of
ASCII letters and digits — the distinct identifiers `AB` and `ab` have
the same image. -/
theorem c6_camelCaseToDash_not_lossless :
    camelCaseToDash "AB" = camelCaseToDash "ab" ∧ ("AB" : String) ≠ "ab" ∧
    ("AB" : String).toList.all isAsciiAlnum = true ∧
    ("ab" : String).toList.all isAsciiAlnum = true :=
  ⟨rfl, by decide, by decide, by decide⟩

/-- C6 (amended): `camelCaseToDash` is idempotent under round-trip for
identifiers containing only ASCII letters and digits, and maps
`viewLocationGoogleMaps` to `view-location-google-maps`; it is not
lossless (injective) on such identifiers. -/
theorem c6_camelCaseToDash_idempotent (s : String)
    (_halnum : s.toList.all isAsciiAlnum = true) :
    camelCaseToDash (camelCaseToDash s) = camelCaseToDash s ∧
    camelCaseToDash "viewLocationGoogleMaps" = "view-location-google-maps" :=
  ⟨camelCaseToDash_idem s, rfl⟩

/-- Witness for C6 at a concrete identifier. -/
theorem c6_camelCaseToDash_idempotent_witness :
    camelCaseToDash (camelCaseToDash "fooBar") = camelCaseToDash "fooBar" :=
  (c6_camelCaseToDash_idempotent "fooBar" (by decide)).1

/-- C3: the rendered streaming-error text follows the extraction
precedence (native `Error` message, raw string, object `message` field,
serialization fallback); a base text with an embedded JSON envelope
prefers a nested `error.message` over a top-level `message`, a base text
without a brace is kept unchanged, and the given quota-exceeded example
renders as `Error: quota exceeded`. -/
theorem c3_error_extraction :
    (∀ m, baseErrorText (ErrVal.errObj m) = m) ∧
    (∀ s, baseErrorText (ErrVal.str s) = s) ∧
    (∀ m, baseErrorText (ErrVal.objWithMessage m) = m) ∧
    (∀ j f, baseErrorText (ErrVal.other (some j) f) = "Unexpected error: " ++ j) ∧
    (∀ f, baseErrorText (ErrVal.other none f) = "Unexpected error: " ++ f) ∧
    (∀ inner outer : String,
        refinedMessageFromSdkJson
            (Json.obj [("error", Json.obj [("message", Json.str inner)]),
              ("message", Json.str outer)])
          = some inner) ∧
    (∀ outer : String,
        refinedMessageFromSdkJson (Json.obj [("message", Json.str outer)]) = some outer) ∧
    (∀ base, idxOfChar braceL base.toList = none → refineErrorMessage base = base) ∧
    renderedErrorText
        (ErrVal.errObj "Unexpected error: \x7b\"error\":\x7b\"message\":\"quota exceeded\"\x7d\x7d")
      = "Error: quota exceeded" := by
  refine ⟨fun m => rfl, fun s => rfl, fun m => rfl, fun j f => rfl, fun f => rfl,
    fun inner outer => rfl, fun outer => rfl, ?_, rfl⟩
  intro base h
  unfold refineErrorMessage
  simp only [h]

/-- Witness for C3 at a concrete brace-free base text. -/
theorem c3_error_extraction_witness :
    refineErrorMessage "network timeout" = "network timeout" :=
  c3_error_extraction.2.2.2.2.2.2.2.1 "network timeout" (by decide)

theorem string_eq_empty_of_length_eq_zero {s : String} (h : s.length = 0) : s = "" := by
  cases s with
  | mk data =>
    cases data with
    | nil => rfl
    | cons a t => simp [String.length] at h

/-- C4 counterexample: in a session whose history holds a tool-call
message from an earlier turn, a turn that streams nothing and emits no
tool call finalizes to an empty answer instead of the `Done.` default. -/
theorem c4_done_default_counterexample :
    ((sendMessageHandler plainChatEnv (StreamOutcome.ok []) "hello" "user"
          sessionAfterToolCall).messages.map Msg.html
        = ["Calling function:\n<code>view-location-google-maps</code>", ""]) ∧
    plainChatEnv.markedParse "Done." = "Done." ∧ ("" : String) ≠ "Done." :=
  ⟨rfl, rfl, by decide⟩

/-- C4 (amended): at turn finalization, if the answer is only the `...`
placeholder or trims to empty, it becomes the rendered `Done.` default
when no message of the whole session (this or any earlier turn) contains
the tool-call marker, and is left trim-empty when some session message
contains it. -/
theorem c4_finalize_amended (done html : String) (hasFC : Bool)
    (h : jsTrim html = "..." ∨ (jsTrim html).length = 0) :
    (hasFC = false → finalizeAnswerHtml done html hasFC = done) ∧
    (hasFC = true → jsTrim (finalizeAnswerHtml done html hasFC) = "") := by
  constructor
  · intro hf
    subst hf
    unfold finalizeAnswerHtml
    rw [if_pos h]
    rfl
  · intro hf
    subst hf
    unfold finalizeAnswerHtml
    rw [if_pos h]
    simp only [Bool.not_true, Bool.false_eq_true, if_false]
    by_cases hdots : jsTrim html = "..."
    · rw [if_pos hdots]
      rfl
    · rcases h with h1 | h2
      · exact absurd h1 hdots
      · rw [if_neg hdots]
        exact string_eq_empty_of_length_eq_zero h2

/-- Witness for C4 at the bare placeholder with no tool-call message. -/
theorem c4_finalize_amended_witness :
    finalizeAnswerHtml "<p>Done.</p>" "..." false = "<p>Done.</p>" :=
  (c4_finalize_amended "<p>Done.</p>" "..." false (Or.inl rfl)).1 rfl

theorem processPart_uniqueSources (env : ChatEnv) (t : TurnState) (p : StreamPart) :
    (processPart env t p).uniqueSources = t.uniqueSources := by
  unfold processPart processFunctionCall processThought processText
  cases p.functionCall <;>
    by_cases h1 : truthyStr p.thought = true <;>
      by_cases h2 : truthyStr p.text = true <;>
        simp [h1, h2]

theorem processParts_uniqueSources (env : ChatEnv) :
    ∀ (ps : List StreamPart) (t : TurnState),
      (ps.foldl (processPart env) t).uniqueSources = t.uniqueSources := by
  intro ps
  induction ps with
  | nil => intro t; rfl
  | cons p rest ih =>
    intro t
    rw [List.foldl_cons, ih, processPart_uniqueSources]

theorem processGroundingChunk_uniqueSources (t : TurnState) (g : GroundingWeb) :
    (processGroundingChunk t g).uniqueSources
      = match groundingPairOf g with
        | some p => assocSet t.uniqueSources p.1 p.2
        | none => t.uniqueSources := by
  unfold processGroundingChunk
  rcases h : groundingPairOf g with _ | p <;> simp [h]

theorem processGroundings_uniqueSources :
    ∀ (gs : List GroundingWeb) (t : TurnState),
      (gs.foldl processGroundingChunk t).uniqueSources
        = (gs.filterMap groundingPairOf).foldl (fun m p => assocSet m p.1 p.2) t.uniqueSources := by
  intro gs
  induction gs with
  | nil => intro t; rfl
  | cons g rest ih =>
    intro t
    rw [List.foldl_cons, ih]
    rcases h : groundingPairOf g with _ | p
    · simp only [List.filterMap_cons, h]
      congr 1
      rw [processGroundingChunk_uniqueSources, h]
    · simp only [List.filterMap_cons, h, List.foldl_cons]
      congr 1
      rw [processGroundingChunk_uniqueSources, h]

theorem processCandidate_uniqueSources (env : ChatEnv) (t : TurnState) (c : Candidate) :
    (processCandidate env t c).uniqueSources
      = (candPairs c).foldl (fun m p => assocSet m p.1 p.2) t.uniqueSources := by
  unfold processCandidate candPairs
  rcases hg : c.groundingChunks with _ | gs
  · rw [processParts_uniqueSources]
    rfl
  · rw [processParts_uniqueSources, processGroundings_uniqueSources]
    rfl

theorem processCandidates_uniqueSources (env : ChatEnv) :
    ∀ (cs : List Candidate) (t : TurnState),
      (cs.foldl (processCandidate env) t).uniqueSources
        = ((cs.map candPairs).flatten).foldl (fun m p => assocSet m p.1 p.2) t.uniqueSources := by
  intro cs
  induction cs with
  | nil => intro t; rfl
  | cons c rest ih =>
    intro t
    rw [List.foldl_cons, ih, List.map_cons, List.flatten_cons, List.foldl_append,
      processCandidate_uniqueSources]

theorem processChunks_uniqueSources_general (env : ChatEnv) :
    ∀ (chunks : List StreamChunk) (t : TurnState),
      (processChunks env t chunks).uniqueSources
        = (groundingPairs chunks).foldl (fun m p => assocSet m p.1 p.2) t.uniqueSources := by
  intro chunks
  induction chunks with
  | nil => intro t; rfl
  | cons ch rest ih =>
    intro t
    unfold processChunks at ih ⊢
    rw [List.foldl_cons, ih]
    unfold groundingPairs
    rw [List.map_cons, List.flatten_cons, List.foldl_append]
    congr 1
    exact processCandidates_uniqueSources env ch.candidates t

theorem assocSet_keys {β : Type} :
    ∀ (m : List (String × β)) (k : String) (v : β),
      (assocSet m k v).map Prod.fst
        = if k ∈ m.map Prod.fst then m.map Prod.fst else m.map Prod.fst ++ [k] := by
  intro m
  induction m with
  | nil => intro k v; simp [assocSet]
  | cons p rest ih =>
    intro k v
    rcases p with ⟨k1, v1⟩
    unfold assocSet
    by_cases h1 : k1 = k
    · subst h1
      simp
    · rw [if_neg h1]
      simp only [List.map_cons, ih]
      by_cases h2 : k ∈ rest.map Prod.fst
      · rw [if_pos h2, if_pos (List.mem_cons_of_mem _ h2)]
      · have hk1 : ¬k = k1 := fun h => h1 h.symm
        have hnotin : k ∉ (k1, v1).1 :: rest.map Prod.fst := by
          intro hmem
          rcases List.mem_cons.mp hmem with heq | hmem2
          · exact hk1 heq
          · exact h2 hmem2
        rw [if_neg h2, if_neg hnotin]
        rfl

theorem nodup_keys_assocSet {β : Type} (m : List (String × β)) (k : String) (v : β)
    (h : (m.map Prod.fst).Nodup) : ((assocSet m k v).map Prod.fst).Nodup := by
  rw [assocSet_keys]
  split
  · exact h
  · rename_i hk
    rw [List.nodup_append]
    exact ⟨h, List.nodup_singleton k, by simpa using hk⟩

theorem nodup_keys_foldl_assocSet :
    ∀ (ps : List (String × String)) (m : List (String × String)),
      (m.map Prod.fst).Nodup →
      (((ps.foldl (fun acc p => assocSet acc p.1 p.2) m)).map Prod.fst).Nodup := by
  intro ps
  induction ps with
  | nil => intro m h; exact h
  | cons p rest ih =>
    intro m h
    rw [List.foldl_cons]
    exact ih _ (nodup_keys_assocSet _ _ _ h)

theorem lookupAssoc_assocSet {β : Type} :
    ∀ (m : List (String × β)) (k : String) (v : β) (u : String),
      lookupAssoc (assocSet m k v) u = if k = u then some v else lookupAssoc m u := by
  intro m
  induction m with
  | nil => intro k v u; rfl
  | cons p rest ih =>
    intro k v u
    rcases p with ⟨k1, v1⟩
    unfold assocSet
    by_cases h1 : k1 = k
    · subst h1
      rw [if_pos rfl]
      unfold lookupAssoc
      by_cases h2 : k1 = u
      · simp only [if_pos h2]
      · simp only [if_neg h2]
    · rw [if_neg h1]
      unfold lookupAssoc
      by_cases h2 : k1 = u
      · have hku : ¬k = u := fun h => h1 (h2.trans h.symm)
        simp only [if_pos h2, if_neg hku]
      · simp only [if_neg h2, ih]

theorem lookupAssoc_foldl_assocSet :
    ∀ (ps : List (String × String)) (m : List (String × String)) (u : String),
      lookupAssoc (ps.foldl (fun acc p => assocSet acc p.1 p.2) m) u
        = match lastTitleFor u ps with
          | some v => some v
          | none => lookupAssoc m u := by
  intro ps
  induction ps with
  | nil => intro m u; rfl
  | cons p rest ih =>
    intro m u
    rw [List.foldl_cons, ih]
    rcases h : lastTitleFor u rest with _ | v
    · have hl : lastTitleFor u (p :: rest) = if p.1 = u then some p.2 else none := by
        rw [lastTitleFor, h]
      simp only [h, hl, lookupAssoc_assocSet]
      by_cases hp : p.1 = u
      · simp only [if_pos hp]
      · simp only [if_neg hp]
    · have hl : lastTitleFor u (p :: rest) = some v := by
        rw [lastTitleFor, h]
      simp only [h, hl]

/-- C5 counterexample: two grounding fragments with the same URI and
different titles leave one entry whose title is the second (last-seen)
title, not the first-seen title the claim states. -/
theorem c5_grounding_title_counterexample :
    collectTurnSources [groundingChunk "https://example.com/a" "First Title",
        groundingChunk "https://example.com/a" "Second Title"]
      = [("https://example.com/a", "Second Title")] ∧
    ("Second Title" : String) ≠ "First Title" :=
  ⟨rfl, by decide⟩

/-- C5 (amended): per turn, grounding (uri, title) pairs are accumulated
deduplicated by URI and rendered once at turn end; the handler's
accumulator equals the `assocSet` fold of the truthy pairs, its URI keys
are duplicate-free, an existing URI keeps its first-seen position, the
stored title is the last-seen one for that URI, and on the concrete
three-fragment stream the entries appear in first-seen order with
last-seen titles. -/
theorem c5_grounding_dedup_amended :
    (∀ (env : ChatEnv) (t : TurnState) (chunks : List StreamChunk),
        (processChunks env t chunks).uniqueSources
          = (groundingPairs chunks).foldl (fun m p => assocSet m p.1 p.2) t.uniqueSources) ∧
    (∀ chunks : List StreamChunk, ((collectTurnSources chunks).map Prod.fst).Nodup) ∧
    (∀ (m : List (String × String)) (k : String) (v : String),
        (assocSet m k v).map Prod.fst
          = if k ∈ m.map Prod.fst then m.map Prod.fst else m.map Prod.fst ++ [k]) ∧
    (∀ (ps : List (String × String)) (m : List (String × String)) (u : String),
        lookupAssoc (ps.foldl (fun acc p => assocSet acc p.1 p.2) m) u
          = match lastTitleFor u ps with
            | some v => some v
            | none => lookupAssoc m u) ∧
    collectTurnSources [groundingChunk "https://example.com/a" "First Title",
        groundingChunk "https://example.com/b" "Other",
        groundingChunk "https://example.com/a" "Second Title"]
      = [("https://example.com/a", "Second Title"), ("https://example.com/b", "Other")] := by
  refine ⟨?_, ?_, assocSet_keys, lookupAssoc_foldl_assocSet, rfl⟩
  · intro env t chunks
    exact processChunks_uniqueSources_general env chunks t
  · intro chunks
    exact nodup_keys_foldl_assocSet (groundingPairs chunks) [] List.nodup_nil

theorem handleViewLocation_bucketList (env : MapEnv) (q : String) (s : MapAppState) :
    (handleViewLocation env q s).bucketList = s.bucketList := by
  unfold handleViewLocation clearTemporaryMapElements performFlyTo searchAndShowPano
  split
  · rcases h : env.geocode q with _ | loc
    · simp only [h]
    · simp only [h]
      split_ifs <;> rfl
  · rfl

theorem handleViewLocation_flights (env : MapEnv) (q : String) (s : MapAppState) (loc : LatLng)
    (hinit : s.mapInitialized = true) (hmap : s.mapReady = true) (hgeo : s.geocoderReady = true)
    (hl : env.geocode q = some loc) :
    (handleViewLocation env q s).flights
      = s.flights ++ [flyRecord loc.lat loc.lng 2000 (67.5 : ℚ)] := by
  unfold handleViewLocation clearTemporaryMapElements performFlyTo searchAndShowPano
  rw [if_pos ⟨hinit, hmap, hgeo⟩, hl]
  simp only [hmap, if_true]
  split_ifs <;> rfl

/-- C7: an `ADD_BUCKET` query whose location matches a stored item's name
case-insensitively does not grow the bucket list; it is handled as a
view of that location with the tab switched to the bucket list, and the
camera is re-centered when the geocoder resolves the query. -/
theorem c7_addBucket_existing_is_view (env : MapEnv) (s : MapAppState) (q : String)
    (notes : Option String) (hq : q ≠ "")
    (hinit : s.mapInitialized = true) (hgeo : s.geocoderReady = true)
    (hexists : (s.bucketList.any fun item => jsToLower item.name == jsToLower q) = true) :
    handleMapQuery env
        { command := MapCommand.ADD_BUCKET, location := some q, origin := none,
          destination := none, notes := notes } s
      = { handleViewLocation env q s with selectedChatTab := ChatTab.BUCKET_LIST } ∧
    (handleMapQuery env
        { command := MapCommand.ADD_BUCKET, location := some q, origin := none,
          destination := none, notes := notes } s).bucketList = s.bucketList ∧
    (s.mapReady = true → ∀ loc, env.geocode q = some loc →
      (handleMapQuery env
          { command := MapCommand.ADD_BUCKET, location := some q, origin := none,
            destination := none, notes := notes } s).flights
        = s.flights ++ [flyRecord loc.lat loc.lng 2000 (67.5 : ℚ)]) := by
  have ht : truthyStr (some q) = true := by simp [truthyStr, hq]
  have hred : handleMapQuery env
      { command := MapCommand.ADD_BUCKET, location := some q, origin := none,
        destination := none, notes := notes } s
      = { handleViewLocation env q s with selectedChatTab := ChatTab.BUCKET_LIST } := by
    unfold handleMapQuery handleAddToBucketList
    simp [ht, hinit, hgeo, hexists]
  refine ⟨hred, ?_, ?_⟩
  · rw [hred]
    exact handleViewLocation_bucketList env q s
  · intro hmap loc hl
    rw [hred]
    show (handleViewLocation env q s).flights = _
    exact handleViewLocation_flights env q s loc hinit hmap hgeo hl

/-- Witness for C7: adding `paris` while `Paris` is stored leaves the
bucket list unchanged. -/
theorem c7_addBucket_existing_witness :
    (handleMapQuery parisMapEnv
        { command := MapCommand.ADD_BUCKET, location := some "paris", origin := none,
          destination := none, notes := none } oneItemMapState).bucketList
      = oneItemMapState.bucketList :=
  (c7_addBucket_existing_is_view parisMapEnv oneItemMapState "paris" none (by decide)
    rfl rfl (by decide)).2.1

theorem length_filter_lt_of_mem {α : Type} (p : α → Bool) :
    ∀ (l : List α) (x : α), x ∈ l → p x = false → (l.filter p).length < l.length := by
  intro l
  induction l with
  | nil => intro x hx _; cases hx
  | cons a t ih =>
    intro x hx hpx
    rcases List.mem_cons.mp hx with rfl | hxt
    · rw [List.filter_cons, hpx]
      simp only [Bool.false_eq_true, if_false]
      exact Nat.lt_succ_of_le (List.length_filter_le p t)
    · rw [List.filter_cons]
      split
      · simp only [List.length_cons]
        exact Nat.succ_lt_succ (ih x hxt hpx)
      · exact Nat.lt_succ_of_le (Nat.le_of_lt (ih x hxt hpx))

theorem handleRemove_bucketList (q : String) (s : MapAppState) :
    (handleRemoveFromBucketList q s).bucketList
      = s.bucketList.filter (fun item => !(jsIncludes (jsToLower item.name) (jsToLower q))) := by
  unfold handleRemoveFromBucketList
  dsimp only
  split <;> rfl

/-- C8: a `REMOVE_BUCKET` query removes exactly the items whose name
contains the query case-insensitively (a substring matching two stored
names removes both), switches the tab to the bucket list when something
was removed, and is a complete no-op — idempotently — when nothing
matches. -/
theorem c8_removeBucket_semantics (env : MapEnv) (s : MapAppState) (q : String) (hq : q ≠ "") :
    (∀ item, item ∈ (handleMapQuery env
          { command := MapCommand.REMOVE_BUCKET, location := some q, origin := none,
            destination := none, notes := none } s).bucketList
        ↔ item ∈ s.bucketList ∧ jsIncludes (jsToLower item.name) (jsToLower q) = false) ∧
    ((s.bucketList.any fun item => jsIncludes (jsToLower item.name) (jsToLower q)) = true →
      (handleMapQuery env
          { command := MapCommand.REMOVE_BUCKET, location := some q, origin := none,
            destination := none, notes := none } s).selectedChatTab = ChatTab.BUCKET_LIST) ∧
    ((s.bucketList.any fun item => jsIncludes (jsToLower item.name) (jsToLower q)) = false →
      handleMapQuery env
          { command := MapCommand.REMOVE_BUCKET, location := some q, origin := none,
            destination := none, notes := none } s = s ∧
      handleMapQuery env
          { command := MapCommand.REMOVE_BUCKET, location := some q, origin := none,
            destination := none, notes := none }
          (handleMapQuery env
            { command := MapCommand.REMOVE_BUCKET, location := some q, origin := none,
              destination := none, notes := none } s) = s) := by
  have ht : truthyStr (some q) = true := by simp [truthyStr, hq]
  have hred : handleMapQuery env
      { command := MapCommand.REMOVE_BUCKET, location := some q, origin := none,
        destination := none, notes := none } s
      = handleRemoveFromBucketList q s := by
    unfold handleMapQuery
    simp [ht]
  refine ⟨?_, ?_, ?_⟩
  · intro item
    rw [hred, handleRemove_bucketList]
    simp [List.mem_filter]
  · intro hany
    rcases List.any_eq_true.mp hany with ⟨x, hxmem, hxp⟩
    have hpx : (fun item => !(jsIncludes (jsToLower item.name) (jsToLower q))) x = false := by
      simp [hxp]
    have hlt := length_filter_lt_of_mem
      (fun item => !(jsIncludes (jsToLower item.name) (jsToLower q))) s.bucketList x hxmem hpx
    rw [hred]
    unfold handleRemoveFromBucketList
    dsimp only
    rw [if_pos hlt]
  · intro hnone
    have hall : ∀ a ∈ s.bucketList,
        (fun item => !(jsIncludes (jsToLower item.name) (jsToLower q))) a = true := by
      intro a ha
      have := List.any_eq_false.mp hnone a ha
      simp only at this ⊢
      simp [Bool.not_eq_true] at this
      simp [this]
    have hfe := List.filter_eq_self.mpr hall
    have hs1 : handleRemoveFromBucketList q s = s := by
      unfold handleRemoveFromBucketList
      dsimp only
      rw [hfe, if_neg (Nat.lt_irrefl _)]
    have hstep : handleMapQuery env
        { command := MapCommand.REMOVE_BUCKET, location := some q, origin := none,
          destination := none, notes := none } s = s := hred.trans hs1
    refine ⟨hstep, ?_⟩
    rw [hstep]
    exact hstep

/-- Witness for C8: a non-matching removal twice over is a no-op. -/
theorem c8_removeBucket_noop_witness :
    handleMapQuery emptyMapEnv
        { command := MapCommand.REMOVE_BUCKET, location := some "zanzibar", origin := none,
          destination := none, notes := none } oneItemMapState = oneItemMapState :=
  ((c8_removeBucket_semantics emptyMapEnv oneItemMapState "zanzibar" (by decide)).2.2
    (by decide)).1

theorem mem_addMissingMarkers_of_mem :
    ∀ (items : List BucketItem) (acc : List (String × Marker3D)) (st : Nat)
      (pr : String × Marker3D), pr ∈ acc → pr ∈ (addMissingMarkers items acc st).1 := by
  intro items
  induction items with
  | nil => intro acc st pr h; exact h
  | cons item rest ih =>
    intro acc st pr h
    unfold addMissingMarkers
    split
    · exact ih _ _ _ h
    · exact ih _ _ _ (List.mem_append_left _ h)

theorem exists_mem_addMissingMarkers :
    ∀ (items : List BucketItem) (acc : List (String × Marker3D)) (st : Nat)
      (item : BucketItem), item ∈ items →
      ∃ m, (item.id, m) ∈ (addMissingMarkers items acc st).1 := by
  intro items
  induction items with
  | nil => intro acc st item h; cases h
  | cons a rest ih =>
    intro acc st item h
    rcases List.mem_cons.mp h with rfl | hrest
    · unfold addMissingMarkers
      split
      · rename_i hany
        rcases List.any_eq_true.mp hany with ⟨pr, hpr, heq⟩
        have hid : pr.1 = item.id := by simpa using heq
        have hpr2 : (item.id, pr.2) = pr := by rw [← hid]
        exact ⟨pr.2, mem_addMissingMarkers_of_mem _ _ _ _ (by rw [hpr2]; exact hpr)⟩
      · exact ⟨mkBucketMarker item st,
          mem_addMissingMarkers_of_mem _ _ _ _ (List.mem_append_right _ (by simp))⟩
    · unfold addMissingMarkers
      split
      · exact ih _ _ _ hrest
      · exact ih _ _ _ hrest

theorem mem_addMissingMarkers_cases :
    ∀ (items : List BucketItem) (acc : List (String × Marker3D)) (st : Nat)
      (id : String) (m : Marker3D), (id, m) ∈ (addMissingMarkers items acc st).1 →
      (id, m) ∈ acc ∨ id ∈ items.map (fun i => i.id) := by
  intro items
  induction items with
  | nil => intro acc st id m h; exact Or.inl h
  | cons a rest ih =>
    intro acc st id m h
    unfold addMissingMarkers at h
    split at h
    · rcases ih _ _ _ _ h with hacc | hmap
      · exact Or.inl hacc
      · rw [List.map_cons]
        exact Or.inr (List.mem_cons_of_mem _ hmap)
    · rcases ih _ _ _ _ h with hacc | hmap
      · rcases List.mem_append.mp hacc with h1 | h2
        · exact Or.inl h1
        · have heq := List.mem_singleton.mp h2
          have hid : id = a.id := congrArg Prod.fst heq
          rw [List.map_cons, hid]
          exact Or.inr (List.mem_cons_self _ _)
      · rw [List.map_cons]
        exact Or.inr (List.mem_cons_of_mem _ hmap)

theorem addMissingMarkers_keys_nodup :
    ∀ (items : List BucketItem) (acc : List (String × Marker3D)) (st : Nat),
      (acc.map Prod.fst).Nodup → (((addMissingMarkers items acc st).1).map Prod.fst).Nodup := by
  intro items
  induction items with
  | nil => intro acc st h; exact h
  | cons a rest ih =>
    intro acc st h
    unfold addMissingMarkers
    split
    · exact ih _ _ h
    · rename_i hany
      apply ih
      rw [List.map_append, List.nodup_append]
      refine ⟨h, List.nodup_singleton _, ?_⟩
      intro x hx hx2
      simp only [List.map_cons, List.map_nil, List.mem_singleton] at hx2
      subst hx2
      rcases List.mem_map.mp hx with ⟨pr, hpr, hfst⟩
      exact hany (List.any_eq_true.mpr ⟨pr, hpr, by simp [hfst]⟩)

/-- C9: once the map is ready, `syncBucketMarkers` makes the set of
on-map marker ids exactly the set of bucket item ids — markers of
removed ids are gone, every item id has a marker, markers of surviving
ids are kept untouched (same marker object), and key uniqueness is
preserved. -/
theorem c9_syncBucketMarkers_reconciles (s : MapAppState)
    (hm : s.mapReady = true) (hk : s.marker3DReady = true) :
    (∀ id, (∃ m, (id, m) ∈ (syncBucketMarkers s).bucketMarkers)
        ↔ id ∈ s.bucketList.map (fun i => i.id)) ∧
    (∀ id m, (id, m) ∈ s.bucketMarkers → id ∈ s.bucketList.map (fun i => i.id) →
        (id, m) ∈ (syncBucketMarkers s).bucketMarkers) ∧
    ((s.bucketMarkers.map Prod.fst).Nodup →
        (((syncBucketMarkers s).bucketMarkers).map Prod.fst).Nodup) := by
  have hsync : (syncBucketMarkers s).bucketMarkers
      = (addMissingMarkers s.bucketList
          (s.bucketMarkers.filter (fun pr => (s.bucketList.map (fun i => i.id)).contains pr.1))
          s.markerStamp).1 := by
    unfold syncBucketMarkers
    rw [if_pos ⟨hm, hk⟩]
  refine ⟨?_, ?_, ?_⟩
  · intro id
    constructor
    · rintro ⟨m, hmem⟩
      rw [hsync] at hmem
      rcases mem_addMissingMarkers_cases _ _ _ _ _ hmem with hin | hin
      · rcases List.mem_filter.mp hin with ⟨_, hcont⟩
        simpa [List.contains] using hcont
      · exact hin
    · intro hid
      rw [hsync]
      rcases List.mem_map.mp hid with ⟨item, hitem, hval⟩
      rcases exists_mem_addMissingMarkers s.bucketList _ s.markerStamp item hitem with ⟨m, hmm⟩
      exact ⟨m, by rw [← hval]; exact hmm⟩
  · intro id m hmem hid
    rw [hsync]
    apply mem_addMissingMarkers_of_mem
    apply List.mem_filter.mpr
    exact ⟨hmem, by simpa [List.contains] using hid⟩
  · intro hnd
    rw [hsync]
    apply addMissingMarkers_keys_nodup
    exact hnd.sublist ((List.filter_sublist _).map Prod.fst)

/-- Witness for C9: the surviving item's marker is kept as-is while the
stale marker is dropped. -/
theorem c9_syncBucketMarkers_witness :
    ("id-paris", parisMarker) ∈ (syncBucketMarkers staleMarkerMapState).bucketMarkers :=
  (c9_syncBucketMarkers_reconciles staleMarkerMapState rfl rfl).2.1 "id-paris" parisMarker
    (by decide) (by decide)

/-- C10: a `MapQuery` with a known command but a missing required
argument — `VIEW`, `ADD_BUCKET` or `REMOVE_BUCKET` without a location,
or `DIRECTIONS` without an origin or without a destination — makes
`handleMapQuery` a complete no-op: the state is unchanged, so no map
action happens and no error is reported. -/
theorem c10_missing_args_noop :
    (∀ (env : MapEnv) (s : MapAppState) (p : MapParams),
        (p.command = MapCommand.VIEW ∨ p.command = MapCommand.ADD_BUCKET ∨
          p.command = MapCommand.REMOVE_BUCKET) →
        truthyStr p.location = false →
        handleMapQuery env p s = s) ∧
    (∀ (env : MapEnv) (s : MapAppState) (p : MapParams),
        p.command = MapCommand.DIRECTIONS →
        (truthyStr p.origin = false ∨ truthyStr p.destination = false) →
        handleMapQuery env p s = s) := by
  constructor
  · rintro env s p (hc | hc | hc) hl <;> simp [handleMapQuery, hc, hl]
  · rintro env s p hc (h | h) <;> simp [handleMapQuery, hc, h]

/-- Witness for C10: a `VIEW` query without a location leaves a ready
state untouched. -/
theorem c10_missing_args_noop_witness :
    handleMapQuery emptyMapEnv
        { command := MapCommand.VIEW, location := none, origin := none,
          destination := none, notes := none } readyMapState = readyMapState :=
  c10_missing_args_noop.1 emptyMapEnv readyMapState _ (Or.inl rfl) rfl

end Orbit
